import Mathlib

/-!
Shallow embedding of the core orchestration layer of the Translate_app
repository (screen-capture change gating, OCR filtering, glossary-backed
translation), together with theorems settling the specification claims.

Source files embedded:
- src/translation/translation_engine.py (IndustrialGlossary, TranslationManager)
- src/core/screen_capture.py (RealTimeMonitor._monitor_loop, _calculate_image_hash)
- src/core/translator_app.py (LiveScreenTranslator._process_ocr, _process_translations)
-/

namespace TranslateApp

/-! ## Python string primitives used by the source -/

/-- Whitespace characters removed by Python's str.strip (ASCII subset;
the source only ever strips ordinary whitespace). -/
def isPySpace (c : Char) : Bool :=
  c = ' ' || c = '\t' || c = '\n' || c = '\r' || c = '\x0b' || c = '\x0c'

/-- Python str.strip: drop leading and trailing whitespace. -/
def pyStrip (s : String) : String :=
  ⟨((s.data.dropWhile isPySpace).reverse.dropWhile isPySpace).reverse⟩

/-- Truthiness of a Python string: nonempty. -/
def strTruthy (s : String) : Bool :=
  !(s == "")

/-- `text.strip()` used as a condition: the text has a non-whitespace character. -/
def nonBlank (s : String) : Bool :=
  strTruthy (pyStrip s)

/-- Does the list start with the given pattern? -/
def beginsWith : List Char → List Char → Bool
  | [], _ => true
  | _ :: _, [] => false
  | p :: ps, c :: cs => p == c && beginsWith ps cs

/-- Python str.replace on character lists, with explicit fuel so that the
recursion is structural (each step consumes at least one input character, so
fuel `l.length` always suffices): replace every (leftmost, non-overlapping)
occurrence of `pat` by `rep`. -/
def replaceAllF (pat rep : List Char) : ℕ → List Char → List Char
  | _, [] => []
  | 0, l => l
  | fuel + 1, c :: cs =>
    if beginsWith pat (c :: cs) ∧ pat ≠ [] then
      rep ++ replaceAllF pat rep fuel (List.drop (pat.length - 1) cs)
    else
      c :: replaceAllF pat rep fuel cs

/-- Python str.replace on strings. -/
def pyReplace (s pat rep : String) : String :=
  ⟨replaceAllF pat.data rep.data s.data.length s.data⟩

/-! ## Glossary Store (IndustrialGlossary, SQLite table
`glossary(id AUTOINCREMENT, chinese, english, category, confidence, usage_count, UNIQUE(chinese, english))`).
The store is modelled as the list of rows in rowid order. -/

structure GlossaryEntry where
  chinese : String
  english : String
  category : String
  confidence : ℚ
  usageCount : ℕ
deriving Repr, DecidableEq

abbrev Glossary := List GlossaryEntry

/-- Row `a` sorts strictly before row `b` under
`ORDER BY confidence DESC, usage_count DESC`. -/
def ranksBefore (a b : GlossaryEntry) : Bool :=
  decide (b.confidence < a.confidence ∨
    (a.confidence = b.confidence ∧ b.usageCount < a.usageCount))

/-- Insert a row into an already ranked list (stably: a new row goes after
equally ranked earlier rows, matching scan order on ties). -/
def insertRanked (e : GlossaryEntry) : List GlossaryEntry → List GlossaryEntry
  | [] => [e]
  | x :: xs => if ranksBefore e x then e :: x :: xs else x :: insertRanked e xs

/-- Sort rows by `ORDER BY confidence DESC, usage_count DESC`. -/
def sortRanked (l : List GlossaryEntry) : List GlossaryEntry :=
  l.foldl (fun acc e => insertRanked e acc) []

/-- Does the row have the given (chinese, english) key? -/
def matchesPair (c e : String) (x : GlossaryEntry) : Bool :=
  x.chinese == c && x.english == e

/-- The rows returned by `IndustrialGlossary.lookup`'s SELECT:
`SELECT english, category, confidence FROM glossary WHERE chinese = ? ORDER BY confidence DESC, usage_count DESC`. -/
def lookupRows (g : Glossary) (t : String) : List (String × String × ℚ) :=
  (sortRanked (g.filter (fun e => e.chinese == t))).map
    (fun e => (e.english, e.category, e.confidence))

/-- The UPDATE in `lookup`: `SET usage_count = usage_count + 1 WHERE chinese = ?`. -/
def bumpUsage (g : Glossary) (t : String) : Glossary :=
  g.map (fun e =>
    if e.chinese == t then
      { e with usageCount := e.usageCount + 1 }
    else e)

/-- `IndustrialGlossary.lookup`: fetch the ranked rows for the term and, when
any were found, increment usage_count on every row with that chinese term.
Returns (rows, updated store). -/
def lookup (g : Glossary) (t : String) : List (String × String × ℚ) × Glossary :=
  let rows := lookupRows g t
  (rows, if rows.isEmpty then g else bumpUsage g t)

/-- `IndustrialGlossary.add_term`: `INSERT OR REPLACE INTO glossary (chinese, english, category, confidence) VALUES (?,?,?,?)`.
REPLACE deletes any row conflicting on UNIQUE(chinese, english) and inserts a
fresh row (new rowid, default usage_count 0). -/
def add_term (g : Glossary) (c e cat : String) (conf : ℚ) : Glossary :=
  g.filter (fun x => !(matchesPair c e x)) ++ [⟨c, e, cat, conf, 0⟩]

/-- One row of `_load_default_terms`'s executemany:
`INSERT OR IGNORE INTO glossary (chinese, english, category, confidence) VALUES (?,?,?,?)`. -/
def insertIgnore (g : Glossary) (r : String × String × String × ℚ) : Glossary :=
  if g.any (matchesPair r.1 r.2.1) then g
  else g ++ [⟨r.1, r.2.1, r.2.2.1, r.2.2.2, 0⟩]

/-- The built-in vocabulary seeded by `IndustrialGlossary._load_default_terms`. -/
def defaultTerms : List (String × String × String × ℚ) :=
  [("启动", "Start", "automation", 1),
   ("停止", "Stop", "automation", 1),
   ("暂停", "Pause", "automation", 1),
   ("复位", "Reset", "automation", 1),
   ("报警", "Alarm", "automation", 1),
   ("故障", "Fault", "automation", 1),
   ("运行", "Run", "automation", 1),
   ("手动", "Manual", "automation", 1),
   ("自动", "Auto", "automation", 1),
   ("程序", "Program", "plc", 1),
   ("下载", "Download", "plc", 1),
   ("上传", "Upload", "plc", 1),
   ("监控", "Monitor", "plc", 1),
   ("调试", "Debug", "plc", 1),
   ("仿真", "Simulation", "plc", 1),
   ("伺服", "Servo", "motor", 1),
   ("电机", "Motor", "motor", 1),
   ("速度", "Speed", "motor", 1),
   ("位置", "Position", "motor", 1),
   ("扭矩", "Torque", "motor", 1),
   ("编码器", "Encoder", "motor", 1),
   ("界面", "Interface", "hmi", 1),
   ("画面", "Screen", "hmi", 1),
   ("按钮", "Button", "hmi", 1),
   ("指示灯", "Indicator", "hmi", 1),
   ("数值", "Value", "hmi", 1),
   ("确定", "OK", "ui", 1),
   ("取消", "Cancel", "ui", 1),
   ("设置", "Settings", "ui", 1),
   ("配置", "Configuration", "ui", 1),
   ("参数", "Parameter", "ui", 1),
   ("选项", "Option", "ui", 1),
   ("菜单", "Menu", "ui", 1),
   ("工具", "Tools", "ui", 1),
   ("帮助", "Help", "ui", 1),
   ("关于", "About", "ui", 1)]

/-- `IndustrialGlossary._load_default_terms`: seed the builtin vocabulary with
insert-if-absent semantics. -/
def load_default_terms (g : Glossary) : Glossary :=
  defaultTerms.foldl insertIgnore g

/-- The store a fresh `IndustrialGlossary` holds after construction. -/
def defaultGlossary : Glossary :=
  load_default_terms []

/-- `lookup` including its try/except: when any sqlite call of the operation
raises (`failure = true`), the handler returns `[]` and no write is committed. -/
def lookup_total (g : Glossary) (failure : Bool) (t : String) :
    List (String × String × ℚ) × Glossary :=
  if failure then ([], g) else lookup g t

/-- `add_term` including its try/except: when any sqlite call of the operation
raises (`failure = true`), the handler logs and the write is discarded. -/
def add_term_total (g : Glossary) (failure : Bool) (c e cat : String)
    (conf : ℚ) : Glossary :=
  if failure then g else add_term g c e cat conf

/-! ## Translation Gateway (TranslationManager) -/

/-- The constant 0.95 (= 19/20), written as an explicit reduced fraction so
that kernel evaluation of the model never needs a gcd computation. -/
def q095 : ℚ := ⟨19, 20, by norm_num, by norm_num⟩

/-- The constant 0.9 (= 9/10). -/
def q09 : ℚ := ⟨9, 10, by norm_num, by norm_num⟩

/-- The constant 0.8 (= 4/5). -/
def q08 : ℚ := ⟨4, 5, by norm_num, by norm_num⟩

/-- The constant 0.5 (= 1/2). -/
def q05 : ℚ := ⟨1, 2, by norm_num, by norm_num⟩

/-- The replacement table of `TranslationManager._post_process_translation`,
in dict insertion order. -/
def replacements : List (String × String) :=
  [("Servo motor", "Servo"),
   ("Motor drive", "Drive"),
   ("Programmable logic controller", "PLC"),
   ("Human machine interface", "HMI"),
   ("Variable frequency drive", "VFD"),
   ("Input/Output", "I/O")]

/-- `TranslationManager._post_process_translation`: apply each replacement in
order with Python str.replace semantics. -/
def post_process_translation (translated : String) : String :=
  replacements.foldl (fun s p => pyReplace s p.1 p.2) translated

/-- `TranslationResult` of translation_engine.py. -/
structure TranslationResult where
  original_text : String
  translated_text : String
  confidence : ℚ
  source_lang : String
  target_lang : String
  glossary_matches : List String
deriving Repr, DecidableEq

/-- Behaviour of a backend engine call on a given text: the backend's raw
output string, or `none` when the backend is unavailable at call time or its
call raises. External collaborator, so modelled as a function. -/
abbrev Backend := String → Option String

/-- `GoogleTranslateEngine.translate`: unavailable or raising calls return the
identity result with confidence 0; a successful call returns the backend's
text with confidence 0.9. (`TranslationManager.translate` consumes only the
`translated_text` field of this result.) -/
def engineTranslate (backend : Backend) (text source_lang target_lang : String) :
    TranslationResult :=
  match backend text with
  | none => ⟨text, text, 0, source_lang, target_lang, []⟩
  | some out => ⟨text, out, q09, source_lang, target_lang, []⟩

/-- The state of a `TranslationManager`: its glossary store, its primary
engine (`none` when no engine is available), and the configured
`translation.use_glossary` value (default true). -/
structure Manager where
  glossary : Glossary
  primary_engine : Option Backend
  config_use_glossary : Bool

/-- `TranslationManager.translate`.  Mirrors the Python control flow:
`enhanced_translation` is `None` or the best glossary target after the
glossary step; `if not enhanced_translation and self.primary_engine:` takes
the engine branch exactly when the glossary produced no truthy string
(no hit, or a hit whose target is the empty string — `None` and `""` are both
falsy, so they are collapsed into one untruthy case here); the `elif` leaves
the original text.  The final result carries confidence 0.95 on a glossary
match and 0.8 otherwise, post-processed text, and the match annotations. -/
def translateM (m : Manager) (text source_lang target_lang : String)
    (use_glossary : Bool) : TranslationResult × Manager :=
  let glossState :=
    if use_glossary && m.config_use_glossary then lookup m.glossary text
    else ([], m.glossary)
  let bestE : Option (String × String × ℚ) := glossState.1.head?
  let glossary_matches : List String :=
    match bestE with
    | some best => [text ++ " -> " ++ best.1 ++ " (" ++ best.2.1 ++ ")"]
    | none => []
  let enhancedGloss : String := (bestE.map (fun b => b.1)).getD ""
  let enhanced₁ : String :=
    if strTruthy enhancedGloss then enhancedGloss
    else
      match m.primary_engine with
      | some backend => (engineTranslate backend text source_lang target_lang).translated_text
      | none => text
  let enhanced := post_process_translation enhanced₁
  (⟨text, enhanced,
    if glossary_matches.isEmpty then q08 else q095,
    source_lang, target_lang, glossary_matches⟩,
   ⟨glossState.2, m.primary_engine, m.config_use_glossary⟩)

/-- `TranslationManager.translate_batch`: translate each text whose stripped
form is truthy, in order, threading the manager state (usage counts). -/
def translate_batch (m : Manager) : List String → List TranslationResult × Manager
  | [] => ([], m)
  | t :: ts =>
    if nonBlank t then
      let step := translateM m t "auto" "en" true
      let rest := translate_batch step.2 ts
      (step.1 :: rest.1, rest.2)
    else
      translate_batch m ts

/-- Modelled from the spec's words for the refinement claim C6: "applies
`translate` per non-blank input, preserving order" — sequential application
of `translate` to a list of texts, threading the manager state. -/
def translateList (m : Manager) : List String → List TranslationResult
  | [] => []
  | t :: ts =>
    let step := translateM m t "auto" "en" true
    step.1 :: translateList step.2 ts

/-! ## Pipeline Coordinator (LiveScreenTranslator) -/

/-- `OCRResult` of ocr_engine.py; `bbox = (x, y, width, height)`. -/
structure OCRResult where
  text : String
  bbox : ℤ × ℤ × ℤ × ℤ
  confidence : ℚ
deriving Repr, DecidableEq

/-- The filter of `LiveScreenTranslator._process_ocr`:
`result.bbox[3] >= min_text_size and len(result.text.strip()) > 1`. -/
def process_ocr_filter (min_text_size : ℤ) (results : List OCRResult) :
    List OCRResult :=
  results.filter (fun r =>
    decide (min_text_size ≤ r.bbox.2.2.2) && decide (1 < (pyStrip r.text).length))

/-- `LiveScreenTranslator._process_translations`: on a nonempty OCR result
list, batch-translate the texts, keep the zipped pairs with
`translated_text != original_text and confidence > 0.5`, and emit the two
parallel lists (`valid_ocr`, `valid_translations`); on an empty list, return
early with no emission.  The first component is the emission (`none` = no
`translation_completed` signal), the second the updated manager state. -/
def process_translations (m : Manager) (ocr_results : List OCRResult) :
    Option (List OCRResult × List TranslationResult) × Manager :=
  if ocr_results.isEmpty then (none, m)
  else
    let texts_to_translate := ocr_results.map (fun r => r.text)
    let batch := translate_batch m texts_to_translate
    let valid := (ocr_results.zip batch.1).filter (fun p =>
      !(p.2.translated_text == p.2.original_text) &&
        decide (q05 < p.2.confidence))
    (some (valid.map Prod.fst, valid.map Prod.snd), batch.2)

/-! ## Change-Gated Capture Loop (RealTimeMonitor) -/

/-- A captured frame, viewed through the external image operations the loop
applies to it: `size` is the numpy element count (0 = failed capture), and
`hashResult` is the outcome of the resize / grayscale / hash pipeline of
`_calculate_image_hash` (`none` when any of those calls raises). -/
structure Frame where
  size : ℕ
  hashResult : Option ℤ

/-- `RealTimeMonitor._calculate_image_hash`: the pipeline's hash, or 0 when
any step raises (the bare `except: return 0`). -/
def calculate_image_hash (f : Frame) : ℤ :=
  match f.hashResult with
  | some h => h
  | none => 0

/-- One iteration of `RealTimeMonitor._monitor_loop` past the capture call,
given the previous accepted fingerprint.  `elapsed` is whether
`current_time - last_capture_time >= frame_interval` held (otherwise the
iteration sleeps and skips).  Returns the new fingerprint state and whether
the OCR callback (and hence any translation work) was invoked. -/
def monitor_step (previous_hash : Option ℤ) (elapsed : Bool) (f : Frame) :
    Option ℤ × Bool :=
  if !elapsed then (previous_hash, false)
  else if f.size == 0 then (previous_hash, false)
  else
    let current_hash := calculate_image_hash f
    if some current_hash = previous_hash then (previous_hash, false)
    else (some current_hash, true)

/-! ## Helper lemmas -/

/-- `translate` always reports the input as `original_text`. -/
lemma translateM_original (m : Manager) (t sl tl : String) (ug : Bool) :
    (translateM m t sl tl ug).1.original_text = t := rfl

/-- `translateList` yields one result per input. -/
lemma translateList_length (l : List String) : ∀ m : Manager,
    (translateList m l).length = l.length := by
  induction l with
  | nil => intro m; rfl
  | cons t ts ih => intro m; simp [translateList, ih]

/-- On a batch of all-non-blank texts, the results list the inputs in order. -/
lemma batch_map_original (texts : List String) : ∀ m : Manager,
    (∀ t ∈ texts, nonBlank t = true) →
    (translate_batch m texts).1.map (fun r => r.original_text) = texts := by
  induction texts with
  | nil => intro m _; rfl
  | cons t ts ih =>
    intro m hall
    have ht : nonBlank t = true := hall t (by simp)
    simp [translate_batch, ht, translateM_original]
    exact ih _ (fun x hx => hall x (by simp [hx]))

/-- When one list's original texts mirror the other's texts positionally, each
zipped pair is internally consistent. -/
lemma zip_original_text (a : List OCRResult) : ∀ b : List TranslationResult,
    b.map (fun r => r.original_text) = a.map (fun r => r.text) →
    ∀ p ∈ a.zip b, p.2.original_text = p.1.text := by
  induction a with
  | nil => intro b _ p hp; simp at hp
  | cons x xs ih =>
    intro b hmap p hp
    cases b with
    | nil => simp at hp
    | cons y ys =>
      simp only [List.map_cons, List.cons.injEq] at hmap
      simp only [List.zip_cons_cons, List.mem_cons] at hp
      rcases hp with rfl | hp
      · exact hmap.1
      · exact ih ys hmap.2 p hp

/-- Texts surviving the OCR noise filter are non-blank. -/
lemma ocr_filter_nonBlank (min_text_size : ℤ) (raw : List OCRResult) :
    ∀ r ∈ process_ocr_filter min_text_size raw, nonBlank r.text = true := by
  intro r hr
  have hc := (List.mem_filter.mp hr).2
  simp only [Bool.and_eq_true, decide_eq_true_eq] at hc
  unfold nonBlank strTruthy
  cases hE : (pyStrip r.text == "") with
  | false => simp
  | true =>
    exfalso
    have h0 : pyStrip r.text = "" := by simpa using hE
    rw [h0] at hc
    have h1 : ("" : String).length = 0 := rfl
    omega

/-- Unzipping a list of internally consistent pairs gives two equal-length,
positionally aligned lists. -/
lemma paired_lists (l : List (OCRResult × TranslationResult))
    (hrel : ∀ p ∈ l, p.2.original_text = p.1.text) :
    (l.map Prod.fst).length = (l.map Prod.snd).length ∧
    ∀ i (hi : i < (l.map Prod.fst).length) (hi' : i < (l.map Prod.snd).length),
      ((l.map Prod.snd).get ⟨i, hi'⟩).original_text
        = ((l.map Prod.fst).get ⟨i, hi⟩).text := by
  constructor
  · simp
  · intro i hi hi'
    rw [List.get_eq_getElem, List.get_eq_getElem, List.getElem_map, List.getElem_map]
    exact hrel _ (l.getElem_mem (by simpa using hi))

/-- An iteration either invokes no recognition, or records the frame's
fingerprint as the new state. -/
lemma monitor_step_accept (prev : Option ℤ) (e : Bool) (f : Frame) :
    (monitor_step prev e f).2 = false ∨
    (monitor_step prev e f).1 = some (calculate_image_hash f) := by
  unfold monitor_step
  cases e
  · simp
  · by_cases hs : f.size == 0
    · simp [hs]
    · by_cases hp : some (calculate_image_hash f) = prev <;> simp [hs, hp]

/-- A frame whose fingerprint matches the state is always discarded. -/
lemma monitor_step_of_eq (prev : Option ℤ) (e : Bool) (f : Frame)
    (hp : some (calculate_image_hash f) = prev) :
    (monitor_step prev e f).2 = false ∧ (monitor_step prev e f).1 = prev := by
  unfold monitor_step
  cases e
  · simp
  · by_cases hs : f.size == 0 <;> simp [hs, hp]

/-- `insertRanked` grows the list by one. -/
lemma insertRanked_length (e : GlossaryEntry) (l : List GlossaryEntry) :
    (insertRanked e l).length = l.length + 1 := by
  induction l with
  | nil => rfl
  | cons x xs ih =>
    unfold insertRanked
    split
    · simp
    · simp [ih]

/-- Folded ranked insertion adds all elements. -/
lemma sortRanked_foldl_length (l : List GlossaryEntry) : ∀ acc : List GlossaryEntry,
    (l.foldl (fun acc e => insertRanked e acc) acc).length = acc.length + l.length := by
  induction l with
  | nil => intro acc; simp
  | cons x xs ih =>
    intro acc
    simp only [List.foldl_cons]
    rw [ih, insertRanked_length]
    simp only [List.length_cons]
    omega

/-- Ranking the rows keeps their number. -/
lemma sortRanked_length (l : List GlossaryEntry) : (sortRanked l).length = l.length := by
  unfold sortRanked
  rw [sortRanked_foldl_length]
  simp

/-- A store holding a row for the term never reports a lookup miss. -/
lemma lookupRows_ne_nil (g : Glossary) (t : String) (a : GlossaryEntry)
    (ha : a ∈ g) (hat : a.chinese = t) : lookupRows g t ≠ [] := by
  unfold lookupRows
  intro hnil
  rw [List.map_eq_nil_iff] at hnil
  have hlen := sortRanked_length (g.filter (fun e => e.chinese == t))
  rw [hnil] at hlen
  have hmem : a ∈ g.filter (fun e => e.chinese == t) :=
    List.mem_filter.mpr ⟨ha, by simp [hat]⟩
  rw [List.eq_nil_of_length_eq_zero hlen.symm] at hmem
  simp at hmem

/-- Seeding with insert-if-absent leaves every pre-existing row in place. -/
lemma seed_getElem? (l : List (String × String × String × ℚ)) : ∀ (g : Glossary) (i : ℕ),
    i < g.length → (List.foldl insertIgnore g l)[i]? = g[i]? := by
  induction l with
  | nil => intro g i _; rfl
  | cons r rs ih =>
    intro g i hi
    simp only [List.foldl_cons]
    have hstep : (insertIgnore g r)[i]? = g[i]? := by
      unfold insertIgnore
      split
      · rfl
      · exact List.getElem?_append_left hi
    have hlen : i < (insertIgnore g r).length := by
      unfold insertIgnore
      split
      · exact hi
      · simp
        omega
    rw [ih (insertIgnore g r) i hlen, hstep]

/-! ## Claims -/

/-- C1, counterexample: with the store holding the single entry
伺服电机 → "Servo motor", the top-ranked target is "Servo motor", yet
`translate` returns "Servo" — the post-processing replacements are applied to
glossary hits too, so `translate` does not return the store's top-ranked
target verbatim. -/
theorem C1_counterexample :
    (lookupRows (add_term [] "伺服电机" "Servo motor" "custom" 1) "伺服电机").head?
        = some ("Servo motor", "custom", 1) ∧
    (translateM ⟨add_term [] "伺服电机" "Servo motor" "custom" 1, none, true⟩
        "伺服电机" "auto" "en" true).1.translated_text = "Servo" ∧
    ("Servo" : String) ≠ "Servo motor" := by
  decide

/-- C1, as amended: for every term whose top-ranked glossary target is
non-empty, `translate` (glossary enabled, default configuration) returns the
post-processed top-ranked target, with the glossary match recorded and
confidence fixed at 0.95 (`q095`), regardless of the translation backend. -/
theorem C1_glossary_precedence (g : Glossary) (engine : Option Backend)
    (t : String) (best : String × String × ℚ)
    (hbest : (lookupRows g t).head? = some best) (hne : best.1 ≠ "") :
    (translateM ⟨g, engine, true⟩ t "auto" "en" true).1
      = ⟨t, post_process_translation best.1, q095, "auto", "en",
          [t ++ " -> " ++ best.1 ++ " (" ++ best.2.1 ++ ")"]⟩ := by
  have h1 : (lookup g t).1 = lookupRows g t := rfl
  unfold translateM
  simp [h1, hbest, strTruthy, hne]

/-- C1, witness: the amended theorem applied to a store mapping 启动 to
"Start" and no backend. -/
theorem C1_witness :
    (translateM ⟨[⟨"启动", "Start", "automation", 1, 0⟩], none, true⟩
        "启动" "auto" "en" true).1
      = ⟨"启动", post_process_translation "Start", q095, "auto", "en",
          ["启动 -> Start (automation)"]⟩ :=
  C1_glossary_precedence [⟨"启动", "Start", "automation", 1, 0⟩] none "启动"
    ("Start", "automation", 1) (by decide) (by decide)

/-- C2, counterexample: on a glossary miss with no backend available,
`translate "Input/Output"` returns translatedText "I/O" (not the input) with
confidence 0.8 (`q08`), not the low constant 0.0 — the manager rebuilds the
result and discards the engine-level 0.0, and post-processing rewrites the
identity fallback. -/
theorem C2_counterexample :
    (translateM ⟨[], none, true⟩ "Input/Output" "auto" "en" true).1.translated_text
        = "I/O" ∧
    ("I/O" : String) ≠ "Input/Output" ∧
    (translateM ⟨[], none, true⟩ "Input/Output" "auto" "en" true).1.confidence = q08 ∧
    q08 ≠ 0 := by
  decide

/-- C2, as amended: on a glossary miss, when the primary backend fails on the
text or no backend is available, `translate` returns (without raising) the
post-processed input as translatedText — equal to the input whenever the
input contains none of the canonicalization phrases — with confidence 0.8
(`q08`, not 0.0: the engine-level 0.0 result is discarded by the manager),
and leaves the glossary unchanged. -/
theorem C2_fallback_identity (g : Glossary) (eng : Option Backend) (cfg : Bool)
    (t : String) (ug : Bool)
    (hmiss : lookupRows g t = [])
    (heng : ∀ b ∈ eng, b t = none) :
    (translateM ⟨g, eng, cfg⟩ t "auto" "en" ug).1
      = ⟨t, post_process_translation t, q08, "auto", "en", []⟩ ∧
    (translateM ⟨g, eng, cfg⟩ t "auto" "en" ug).2.glossary = g := by
  have h1 : (lookup g t).1 = lookupRows g t := rfl
  have h2 : (lookup g t).2 = g := by
    unfold lookup
    simp [hmiss]
  unfold translateM
  cases eng with
  | none => cases ug <;> cases cfg <;> simp [h1, h2, hmiss, strTruthy]
  | some b =>
    have hb : b t = none := heng b rfl
    cases ug <;> cases cfg <;> simp [h1, h2, hmiss, strTruthy, engineTranslate, hb]

/-- C2, witness: the amended theorem applied to an empty store, no backend
and the glossary-missing text 未知词汇. -/
theorem C2_witness :
    (translateM ⟨[], none, true⟩ "未知词汇" "auto" "en" true).1
      = ⟨"未知词汇", post_process_translation "未知词汇", q08, "auto", "en", []⟩ ∧
    (translateM ⟨[], none, true⟩ "未知词汇" "auto" "en" true).2.glossary = [] :=
  C2_fallback_identity [] none true "未知词汇" true (by decide) (by simp)

/-- C3: feeding two frames with equal fingerprints through consecutive
iterations of the capture loop invokes recognition at most once, and whenever
the first frame is processed the second is discarded with the fingerprint
state unchanged. -/
theorem C3_idempotent_gating (prev : Option ℤ) (e1 e2 : Bool) (f1 f2 : Frame)
    (hh : calculate_image_hash f1 = calculate_image_hash f2) :
    (cond (monitor_step prev e1 f1).2 1 0) +
      (cond (monitor_step (monitor_step prev e1 f1).1 e2 f2).2 1 0) ≤ 1 ∧
    ((monitor_step prev e1 f1).2 = true →
      (monitor_step (monitor_step prev e1 f1).1 e2 f2).2 = false ∧
      (monitor_step (monitor_step prev e1 f1).1 e2 f2).1
        = (monitor_step prev e1 f1).1) := by
  rcases monitor_step_accept prev e1 f1 with hb1 | hst
  · constructor
    · rw [hb1]
      cases (monitor_step (monitor_step prev e1 f1).1 e2 f2).2 <;> simp
    · intro hcontra
      rw [hcontra] at hb1
      cases hb1
  · have h2 := monitor_step_of_eq (monitor_step prev e1 f1).1 e2 f2
      (by rw [hst]; exact congrArg some hh.symm)
    constructor
    · rw [h2.1]
      cases (monitor_step prev e1 f1).2 <;> simp
    · intro _
      exact ⟨h2.1, h2.2⟩

/-- C3, witness: two identical frames through the loop from a fresh state —
the first is processed, the second never triggers recognition. -/
theorem C3_witness :
    calculate_image_hash ⟨1, some 5⟩ = calculate_image_hash ⟨1, some 5⟩ ∧
    (cond (monitor_step none true ⟨1, some 5⟩).2 1 0) +
      (cond (monitor_step (monitor_step none true ⟨1, some 5⟩).1 true
        ⟨1, some 5⟩).2 1 0) ≤ 1 :=
  ⟨rfl, (C3_idempotent_gating none true true ⟨1, some 5⟩ ⟨1, some 5⟩ rfl).1⟩

/-- C4: every translated result the coordinator emits has translatedText
different from originalText and confidence strictly above 0.5 (`q05`) — so a
pair with equal texts is never emitted and one with confidence exactly 0.5 is
excluded. -/
theorem C4_emission_filter (m : Manager) (ocr : List OCRResult)
    (vo : List OCRResult) (vt : List TranslationResult)
    (hemit : (process_translations m ocr).1 = some (vo, vt))
    (tr : TranslationResult) (htr : tr ∈ vt) :
    tr.translated_text ≠ tr.original_text ∧ q05 < tr.confidence := by
  unfold process_translations at hemit
  by_cases hocr : ocr.isEmpty
  · simp [hocr] at hemit
  · simp only [hocr, if_false, Bool.false_eq_true, Option.some.injEq,
      Prod.mk.injEq] at hemit
    obtain ⟨hvo, hvt⟩ := hemit
    rw [← hvt] at htr
    obtain ⟨p, hp, rfl⟩ := List.mem_map.mp htr
    have hcond := (List.mem_filter.mp hp).2
    simp only [Bool.and_eq_true, Bool.not_eq_eq_eq_not, Bool.not_true,
      beq_eq_false_iff_ne, decide_eq_true_eq] at hcond
    exact ⟨hcond.1, hcond.2⟩

/-- C4, witness: a glossary hit for 启动 is emitted and satisfies the
emission filter. -/
theorem C4_witness :
    (⟨"启动", "Start", q095, "auto", "en",
        ["启动 -> Start (automation)"]⟩ : TranslationResult).translated_text
      ≠ (⟨"启动", "Start", q095, "auto", "en",
        ["启动 -> Start (automation)"]⟩ : TranslationResult).original_text ∧
    q05 < (⟨"启动", "Start", q095, "auto", "en",
        ["启动 -> Start (automation)"]⟩ : TranslationResult).confidence :=
  C4_emission_filter ⟨[⟨"启动", "Start", "automation", 1, 0⟩], none, true⟩
    [⟨"启动", (0, 0, 10, 20), q09⟩]
    [⟨"启动", (0, 0, 10, 20), q09⟩]
    [⟨"启动", "Start", q095, "auto", "en", ["启动 -> Start (automation)"]⟩]
    (by decide)
    ⟨"启动", "Start", q095, "auto", "en", ["启动 -> Start (automation)"]⟩
    (by simp)

/-- C5: on OCR results coming out of the coordinator's pre-filter (which
removes blank texts before the batch call), every emission consists of two
equal-length lists in which the i-th translation's originalText equals the
i-th recognized region's text. -/
theorem C5_pairing_invariant (m : Manager) (min_text_size : ℤ)
    (raw : List OCRResult) (vo : List OCRResult) (vt : List TranslationResult)
    (hemit : (process_translations m (process_ocr_filter min_text_size raw)).1
        = some (vo, vt)) :
    vo.length = vt.length ∧
    ∀ i (hi : i < vo.length) (hi' : i < vt.length),
      (vt.get ⟨i, hi'⟩).original_text = (vo.get ⟨i, hi⟩).text := by
  have hall : ∀ t ∈ (process_ocr_filter min_text_size raw).map (fun r => r.text),
      nonBlank t = true := by
    intro t ht
    obtain ⟨r, hr, rfl⟩ := List.mem_map.mp ht
    exact ocr_filter_nonBlank min_text_size raw r hr
  have hrel : ∀ p ∈ (process_ocr_filter min_text_size raw).zip
      (translate_batch m
        ((process_ocr_filter min_text_size raw).map (fun r => r.text))).1,
      p.2.original_text = p.1.text := by
    apply zip_original_text
    exact batch_map_original _ m hall
  unfold process_translations at hemit
  by_cases hocr : (process_ocr_filter min_text_size raw).isEmpty
  · simp [hocr] at hemit
  · simp only [hocr, if_false, Bool.false_eq_true, Option.some.injEq,
      Prod.mk.injEq] at hemit
    obtain ⟨hvo, hvt⟩ := hemit
    subst hvo
    subst hvt
    exact paired_lists _ (fun p hp => hrel p (List.mem_of_mem_filter hp))

/-- C5, witness: a one-region pipeline run through the OCR pre-filter emits
two aligned singleton lists. -/
theorem C5_witness :
    ([⟨"启动", (0, 0, 10, 20), q09⟩] : List OCRResult).length
      = ([⟨"启动", "Start", q095, "auto", "en",
          ["启动 -> Start (automation)"]⟩] : List TranslationResult).length ∧
    ∀ i (hi : i < ([⟨"启动", (0, 0, 10, 20), q09⟩] : List OCRResult).length)
      (hi' : i < ([⟨"启动", "Start", q095, "auto", "en",
          ["启动 -> Start (automation)"]⟩] : List TranslationResult).length),
      (([⟨"启动", "Start", q095, "auto", "en",
          ["启动 -> Start (automation)"]⟩] : List TranslationResult).get
            ⟨i, hi'⟩).original_text
        = (([⟨"启动", (0, 0, 10, 20), q09⟩] : List OCRResult).get ⟨i, hi⟩).text :=
  C5_pairing_invariant ⟨[⟨"启动", "Start", "automation", 1, 0⟩], none, true⟩ 5
    [⟨"启动", (0, 0, 10, 20), q09⟩]
    [⟨"启动", (0, 0, 10, 20), q09⟩]
    [⟨"启动", "Start", q095, "auto", "en", ["启动 -> Start (automation)"]⟩]
    (by decide)

/-- C6: `translate_batch` equals translating each non-blank input in order
(state threaded through), so blank inputs produce no output element and the
output length is the number of non-blank inputs. -/
theorem C6_translate_batch (m : Manager) (texts : List String) :
    (translate_batch m texts).1 = translateList m (texts.filter nonBlank) ∧
    (translate_batch m texts).1.length = (texts.filter nonBlank).length := by
  have main : ∀ (l : List String) (m : Manager),
      (translate_batch m l).1 = translateList m (l.filter nonBlank) := by
    intro l
    induction l with
    | nil => intro m; rfl
    | cons t ts ih =>
      intro m
      by_cases h : nonBlank t
      · simp [translate_batch, translateList, h, ih]
      · simp [translate_batch, h, ih]
  refine ⟨main texts m, ?_⟩
  rw [main texts m, translateList_length]

/-- C7: `add_term` is an idempotent upsert keyed by the (chinese, english)
pair — calling it twice equals calling it once, and exactly one row for the
pair remains. -/
theorem C7_add_term_idempotent (g : Glossary) (c e cat : String) (conf : ℚ) :
    add_term (add_term g c e cat conf) c e cat conf = add_term g c e cat conf ∧
    ((add_term (add_term g c e cat conf) c e cat conf).filter
        (matchesPair c e)).length = 1 := by
  unfold add_term
  constructor
  · simp [List.filter_append, List.filter_filter, matchesPair]
  · simp [List.filter_append, List.filter_filter, matchesPair]

/-- C8, counterexample: after one lookup hit the entry's usageCount is 1, and
a subsequent `add_term` for the same (sourceTerm, targetTerm) pair resets it
to 0 — a decrease, so usageCount is not monotonic under addTerm. -/
theorem C8_counterexample :
    (lookup (add_term [] "测试" "Test" "custom" 1) "测试").2
      = [⟨"测试", "Test", "custom", 1, 1⟩] ∧
    add_term (lookup (add_term [] "测试" "Test" "custom" 1) "测试").2
        "测试" "Test" "custom" 1
      = [⟨"测试", "Test", "custom", 1, 0⟩] := by
  decide

/-- C8, as amended: a successful lookup hit increments the usageCount of
every entry with the looked-up source term and never decreases any entry's
usageCount; re-seeding the defaults leaves every existing entry unchanged;
but `add_term` replaces any entry with the written (sourceTerm, targetTerm)
pair by a fresh one whose usageCount is 0 — so monotonicity holds under
lookup and seeding, not across addTerm. -/
theorem C8_usage_monotonicity (g : Glossary) (t c e cat : String) (conf : ℚ)
    (i : ℕ) (a b : GlossaryEntry)
    (ha : g[i]? = some a) (hb : ((lookup g t).2)[i]? = some b) :
    a.usageCount ≤ b.usageCount ∧
    (a.chinese = t → b.usageCount = a.usageCount + 1) ∧
    (load_default_terms g)[i]? = some a ∧
    (∀ x ∈ add_term g c e cat conf, matchesPair c e x = true → x.usageCount = 0) := by
  have hilt : i < g.length := (List.getElem?_eq_some.mp ha).1
  have hamem : a ∈ g := by
    obtain ⟨hlt, he⟩ := List.getElem?_eq_some.mp ha
    exact he ▸ g.getElem_mem hlt
  have hseed : (load_default_terms g)[i]? = some a := by
    unfold load_default_terms
    rw [seed_getElem? defaultTerms g i hilt]
    exact ha
  have hadd : ∀ x ∈ add_term g c e cat conf, matchesPair c e x = true →
      x.usageCount = 0 := by
    intro x hx hmx
    unfold add_term at hx
    rcases List.mem_append.mp hx with hx1 | hx2
    · have hxf := (List.mem_filter.mp hx1).2
      rw [hmx] at hxf
      simp at hxf
    · have hxe : x = ⟨c, e, cat, conf, 0⟩ := by simpa using hx2
      rw [hxe]
  unfold lookup at hb
  by_cases hrows : (lookupRows g t).isEmpty
  · simp only [hrows, if_true] at hb
    have hba : b = a := by
      rw [ha] at hb
      exact (Option.some.inj hb).symm
    refine ⟨by simp [hba], ?_, hseed, hadd⟩
    intro hat
    exfalso
    exact lookupRows_ne_nil g t a hamem hat (List.isEmpty_iff.mp hrows)
  · simp only [hrows, if_false, Bool.false_eq_true] at hb
    unfold bumpUsage at hb
    rw [List.getElem?_map, ha] at hb
    simp only [Option.map_some'] at hb
    have hbv := (Option.some.inj hb).symm
    refine ⟨?_, ?_, hseed, hadd⟩
    · rw [hbv]
      split
      · simp
      · simp
    · intro hat
      rw [hbv]
      simp [hat]

/-- C8, witness: the amended theorem applied to a one-entry store and a
lookup hit on it. -/
theorem C8_witness :
    (⟨"启动", "Start", "automation", 1, 0⟩ : GlossaryEntry).usageCount
      ≤ (⟨"启动", "Start", "automation", 1, 1⟩ : GlossaryEntry).usageCount ∧
    ((⟨"启动", "Start", "automation", 1, 0⟩ : GlossaryEntry).chinese = "启动" →
      (⟨"启动", "Start", "automation", 1, 1⟩ : GlossaryEntry).usageCount
        = (⟨"启动", "Start", "automation", 1, 0⟩ : GlossaryEntry).usageCount + 1) ∧
    (load_default_terms [⟨"启动", "Start", "automation", 1, 0⟩])[0]?
      = some ⟨"启动", "Start", "automation", 1, 0⟩ ∧
    (∀ x ∈ add_term [⟨"启动", "Start", "automation", 1, 0⟩] "测试" "Test" "custom" 1,
      matchesPair "测试" "Test" x = true → x.usageCount = 0) :=
  C8_usage_monotonicity [⟨"启动", "Start", "automation", 1, 0⟩] "启动"
    "测试" "Test" "custom" 1 0
    ⟨"启动", "Start", "automation", 1, 0⟩ ⟨"启动", "Start", "automation", 1, 1⟩
    (by decide) (by decide)

/-- C9: when the backing store operation fails, `lookup` returns the empty
list (a miss) leaving the store as it was, and `add_term` discards the write;
both are total functions, so neither propagates an exception. -/
theorem C9_store_failure (g : Glossary) (t c e cat : String) (conf : ℚ) :
    lookup_total g true t = ([], g) ∧ add_term_total g true c e cat conf = g :=
  ⟨rfl, rfl⟩

/-- C10: the fingerprint function is total and returns 0 whenever the
internal image pipeline raises; consequently two consecutive non-empty frames
whose hashing fails both fingerprint to 0 and the second is discarded without
recognition. -/
theorem C10_hash_total_gating (prev : Option ℤ) (f1 f2 : Frame)
    (h1 : f1.hashResult = none) (h2 : f2.hashResult = none)
    (s1 : f1.size ≠ 0) (s2 : f2.size ≠ 0) :
    calculate_image_hash f1 = 0 ∧ calculate_image_hash f2 = 0 ∧
    (monitor_step (monitor_step prev true f1).1 true f2).2 = false := by
  refine ⟨by simp [calculate_image_hash, h1], by simp [calculate_image_hash, h2], ?_⟩
  unfold monitor_step
  simp [calculate_image_hash, h1, h2, s1, s2]
  split <;> simp_all

/-- C10, witness: two non-empty frames whose hashing raises, from a fresh
state. -/
theorem C10_witness :
    calculate_image_hash ⟨1, none⟩ = 0 ∧ calculate_image_hash ⟨1, none⟩ = 0 ∧
    (monitor_step (monitor_step none true ⟨1, none⟩).1 true ⟨1, none⟩).2 = false :=
  C10_hash_total_gating none ⟨1, none⟩ ⟨1, none⟩ rfl rfl
    (by decide) (by decide)

end TranslateApp
